import Mathlib

/-!
Shallow embedding of the circuit-pool and resilient-fetch code of
hazae41/echalote-example-next (src/pages/index.tsx and the two unnamed
variants).  The retry loop `tryFetchTorText` / `tryFetchTorAsText` is
modelled as a deterministic executor over a trace of per-iteration
environments (abort flags sampled at the code's two check points, the
leased circuit, and the attempt's outcome); the mutex-guarded
select-then-delete critical section of `tryFetchTorAsText` is modelled
as the atomic operation `takeOne`.
-/

/-- Constant slept by `await new Promise(ok => setTimeout(ok, 1000))`
in the catch branch of the retry loop (index.tsx line 84). -/
def backoffDelayMs : Nat := 1000

/-- Timeout passed to `AbortSignal.timeout(5000)` at the start of each
attempt (index.tsx line 68). -/
def perAttemptTimeoutMs : Nat := 5000

/-- Observable events of one run of the retry loop: number of lease
operations, number of `circuit.fetch` attempts, the durations slept in
order, the circuits passed to `destroy`, and the number of
`console.warn` calls. -/
structure Log where
  leases : Nat
  attempts : Nat
  sleeps : List Nat
  destroyed : List Nat
  warns : Nat
deriving Repr, DecidableEq

/-- Empty event log. -/
def Log.empty : Log := ⟨0, 0, [], [], 0⟩

/-- Sequential composition of event logs: events of `l1` happen before
those of `l2`. -/
def Log.seq (l1 l2 : Log) : Log :=
  ⟨l1.leases + l2.leases, l1.attempts + l2.attempts, l1.sleeps ++ l2.sleeps,
   l1.destroyed ++ l2.destroyed, l1.warns + l2.warns⟩

/-- Events of one loop iteration up to and including `circuit.fetch`:
one lease, one attempt, nothing else. -/
def attemptLog : Log := ⟨1, 1, [], [], 0⟩

/-- Events of the non-aborted catch branch: `circuit.destroy()`,
`console.warn`, and the 1000 ms sleep (index.tsx lines 81-84). -/
def failRecoveryLog (c : Nat) : Log := ⟨0, 0, [backoffDelayMs], [c], 1⟩

/-- Outcome of one `circuit.fetch` attempt: a 2xx response with body,
a non-2xx response whose body becomes the error message, or a thrown
transport-level error (connection failure, per-attempt timeout, ...). -/
inductive AttemptResult where
  | ok (body : String)
  | notOk (msg : String)
  | thrown (e : Nat)
deriving Repr, DecidableEq

/-- Environment of one loop iteration: whether `signal?.aborted` is
true at the loop-top check, the circuit the lease step yields, the
attempt's outcome, and whether `signal?.aborted` is true at the catch
check. -/
structure IterEnv where
  abortedAtTop : Bool
  circuit : Nat
  attempt : AttemptResult
  abortedAtCatch : Bool
deriving Repr, DecidableEq

/-- Result of the retry loop: a returned `{ data }`, a returned
`{ error }`, the `Aborted` error thrown at the loop top, a rethrown
attempt error, or still running when the trace is exhausted. -/
inductive FetchResult where
  | data (body : String)
  | error (msg : String)
  | abortedErr
  | rethrown (e : Nat)
  | running
deriving Repr, DecidableEq

/-- Embedding of the retry loop of `tryFetchTorText`
(src/pages/index.tsx lines 62-86; identical in both unnamed variants):
check `signal?.aborted` and throw `Aborted`; lease a circuit; attempt
`circuit.fetch` under a fresh 5 s timeout signal; return on `res.ok`
and on non-2xx; in the catch, rethrow when `signal?.aborted`, else
destroy the circuit, warn, sleep 1000 ms and loop. -/
def tryFetchTorText : List IterEnv → FetchResult × Log
  | [] => (.running, Log.empty)
  | env :: rest =>
    if env.abortedAtTop then (.abortedErr, Log.empty)
    else
      match env.attempt with
      | .ok body => (.data body, attemptLog)
      | .notOk msg => (.error msg, attemptLog)
      | .thrown e =>
        if env.abortedAtCatch then (.rethrown e, attemptLog)
        else
          let r := tryFetchTorText rest
          (r.1, Log.seq (Log.seq attemptLog (failRecoveryLog env.circuit)) r.2)

/-- An abort signal as the code can pass one to an awaited operation:
the caller's signal from `params`/`init`, or a fresh
`AbortSignal.timeout(ms)`. -/
inductive SignalKind where
  | caller
  | timeoutMs (ms : Nat)
deriving Repr, DecidableEq

/-- Signal passed to `circuit.fetch(url, { signal })`: the fresh
`AbortSignal.timeout(5000)` constructed at the start of the attempt,
shadowing the caller's signal (index.tsx lines 68-69). -/
def fetchAttemptSignal : SignalKind := .timeoutMs perAttemptTimeoutMs

/-- Awaited suspension points inside the loop body. -/
inductive AwaitPoint where
  | leaseWait
  | requestAttempt
  | backoffSleep
deriving Repr, DecidableEq

/-- Signal wired to each awaited operation, read off the source:
`await pool.get()` / `pool.lock(...)` receives no signal,
`circuit.fetch` receives the fresh timeout signal, and
`await new Promise(ok => setTimeout(ok, 1000))` receives no signal. -/
def awaitSignal : AwaitPoint → Option SignalKind
  | .leaseWait => none
  | .requestAttempt => some fetchAttemptSignal
  | .backoffSleep => none

/-- Iteration environment of a permanently failing transport with the
caller's signal never aborted. -/
def permFailEnv : IterEnv := ⟨false, 0, AttemptResult.thrown 0, false⟩

/-- Trace of `k` iterations against a permanently failing transport. -/
def permFailTrace (k : Nat) : List IterEnv := List.replicate k permFailEnv

/-- Embedding of the body of `pool.lock` in `tryFetchTorAsText`
(index.tsx lines 238-242): `circuits.cryptoRandom()` selects a circuit
(here: at choice index `k` modulo the pool size), `circuits.delete`
removes that instance, and the circuit is returned.  Mutual exclusion
of the compound step, provided by the `Mutex`, makes it one atomic
operation on the pool state. -/
def takeOne (pool : List Nat) (k : Nat) : Option (Nat × List Nat) :=
  match pool with
  | [] => none
  | c0 :: cs =>
    let l := c0 :: cs
    let c := l.get ⟨k % l.length, Nat.mod_lt _ (Nat.succ_pos cs.length)⟩
    some (c, l.erase c)

/-- An atomic operation on the shared pool: a `takeOne` call with its
selection choice, or the pool's background refill adding one freshly
created circuit instance. -/
inductive PoolOp where
  | take (k : Nat)
  | refill
deriving Repr, DecidableEq

/-- Shared pool state: the circuit instances currently in the pool and
the id the next freshly created instance will receive (a new instance
is never equal to any instance created before). -/
structure PoolSt where
  circuits : List Nat
  next : Nat
deriving Repr, DecidableEq

/-- One atomic step on the pool; returns the new state and the circuit
handed out by this step, if any. -/
def poolStep (s : PoolSt) : PoolOp → PoolSt × List Nat
  | .take k =>
    match takeOne s.circuits k with
    | none => (s, [])
    | some (c, cs) => (⟨cs, s.next⟩, [c])
  | .refill => (⟨s.circuits ++ [s.next], s.next + 1⟩, [])

/-- Run of a sequence of atomic pool operations; returns the final
state and all circuits handed out, in order. -/
def poolRun (s : PoolSt) : List PoolOp → PoolSt × List Nat
  | [] => (s, [])
  | op :: ops =>
    let p1 := poolStep s op
    let p2 := poolRun p1.1 ops
    (p2.1, p1.2 ++ p2.2)

/-- Pool freshly filled with `c` distinct circuit instances. -/
def initPool (c : Nat) : PoolSt := ⟨List.range c, c⟩

/-- Well-formedness of the pool state: the pool holds pairwise
distinct instances, all created before the freshness counter. -/
def PoolInv (s : PoolSt) : Prop :=
  s.circuits.Nodup ∧ ∀ c ∈ s.circuits, c < s.next

/-- Outcome of one call of `tryFetchTorAsText` with the pool threaded
through: the loop's result, the final pool contents, the circuits
leased by the call in order, and the circuits it destroyed. -/
structure RunOut where
  result : FetchResult
  pool : List Nat
  leased : List Nat
  destroyed : List Nat
deriving Repr, DecidableEq

/-- Iteration environment for the pooled loop: as `IterEnv` but with
the `cryptoRandom` selection choice in place of a fixed circuit. -/
structure LeaseEnv where
  abortedAtTop : Bool
  choice : Nat
  attempt : AttemptResult
  abortedAtCatch : Bool
deriving Repr, DecidableEq

/-- Embedding of `tryFetchTorAsText` (index.tsx lines 231-264) with
the pool state threaded through the loop: check `signal?.aborted`;
lease via the mutex-guarded `takeOne`; attempt the fetch; return on
2xx and on non-2xx; in the catch, rethrow when `signal?.aborted`, else
`circuit.tryDestroy()` and loop after the backoff sleep.  An empty
pool leaves the call waiting on circuit creation (`running`). -/
def tryFetchTorAsText : List LeaseEnv → List Nat → RunOut
  | [], pool => ⟨.running, pool, [], []⟩
  | env :: rest, pool =>
    if env.abortedAtTop then ⟨.abortedErr, pool, [], []⟩
    else
      match takeOne pool env.choice with
      | none => ⟨.running, pool, [], []⟩
      | some (c, pool2) =>
        match env.attempt with
        | .ok body => ⟨.data body, pool2, [c], []⟩
        | .notOk msg => ⟨.error msg, pool2, [c], []⟩
        | .thrown e =>
          if env.abortedAtCatch then ⟨.rethrown e, pool2, [c], []⟩
          else
            let r := tryFetchTorAsText rest pool2
            ⟨r.result, r.pool, c :: r.leased, c :: r.destroyed⟩

/-- Whether the run's terminal outcome is a returned `{ data }` or
`{ error }`, i.e. a completed transport exchange. -/
def isTerminalBody : FetchResult → Bool
  | .data _ => true
  | .error _ => true
  | _ => false

/-- A circuit is consumed by a run when the run terminates returning
the body of the exchange that circuit carried: it is the last leased
circuit and the result is a returned `{ data }` or `{ error }`. -/
def consumed (out : RunOut) (c : Nat) : Prop :=
  isTerminalBody out.result = true ∧ out.leased.getLast? = some c

/-- Schema value built by `getSchema`/`getSingleSchema`: the cache
key, whether a fetcher is attached, and the overall timeout. -/
structure Schema where
  key : Option String
  hasFetcher : Bool
  timeoutMs : Nat
deriving Repr, DecidableEq

/-- Embedding of `getTorText` (part_001 lines 86-92): without a pool
it returns no schema at all (`if (!pool) return`), so no fetch is ever
started; with a pool it registers the fetcher under the key
`"tor:" + url` with a 30-second overall timeout. -/
def getTorText (url : String) (pool : Option PoolSt) : Option Schema :=
  match pool with
  | none => none
  | some _ => some ⟨some (String.append "tor:" url), true, 30 * 1000⟩

/-- A successful `takeOne` returns a circuit of the pool and the pool
with exactly that instance removed. -/
theorem takeOne_eq {pool : List Nat} {k c : Nat} {cs : List Nat}
    (h : takeOne pool k = some (c, cs)) : c ∈ pool ∧ cs = pool.erase c := by
  match pool with
  | [] => simp [takeOne] at h
  | c0 :: rest =>
    simp only [takeOne, Option.some.injEq, Prod.mk.injEq] at h
    obtain ⟨h1, h2⟩ := h
    subst h1
    subst h2
    exact ⟨List.get_mem _ _ _, rfl⟩

/-- Invariant preservation and provenance of handed-out circuits for a
run of atomic pool operations: the invariant is maintained, the
freshness counter only grows, final pool members and outputs come from
the initial pool or are freshly created, and the outputs are pairwise
distinct. -/
theorem poolRun_spec (ops : List PoolOp) : ∀ s : PoolSt, PoolInv s →
    PoolInv (poolRun s ops).1 ∧
    s.next ≤ (poolRun s ops).1.next ∧
    (∀ x ∈ (poolRun s ops).1.circuits, x ∈ s.circuits ∨ s.next ≤ x) ∧
    (poolRun s ops).2.Nodup ∧
    (∀ o ∈ (poolRun s ops).2, o ∈ s.circuits ∨ s.next ≤ o) := by
  induction ops with
  | nil =>
    intro s hs
    refine ⟨hs, le_refl _, fun x hx => Or.inl hx, List.nodup_nil, ?_⟩
    intro o ho
    simp [poolRun] at ho
  | cons op ops ih =>
    intro s hs
    obtain ⟨hnd, hbd⟩ := hs
    cases op with
    | refill =>
      have hs1 : PoolInv ⟨s.circuits ++ [s.next], s.next + 1⟩ := by
        constructor
        · rw [List.nodup_append]
          refine ⟨hnd, List.nodup_singleton _, ?_⟩
          intro a ha hb
          rw [List.mem_singleton.mp hb] at ha
          exact absurd (hbd _ ha) (lt_irrefl _)
        · intro c hc
          rcases List.mem_append.mp hc with hc | hc
          · exact Nat.lt_succ_of_lt (hbd _ hc)
          · rw [List.mem_singleton.mp hc]
            exact Nat.lt_succ_self _
      obtain ⟨ha, hb, hc, hd, he⟩ := ih ⟨s.circuits ++ [s.next], s.next + 1⟩ hs1
      simp only [poolRun, poolStep, List.nil_append]
      refine ⟨ha, le_trans (Nat.le_succ _) hb, ?_, hd, ?_⟩
      · intro x hx
        rcases hc x hx with hx2 | hx2
        · rcases List.mem_append.mp hx2 with hx3 | hx3
          · exact Or.inl hx3
          · exact Or.inr (le_of_eq (List.mem_singleton.mp hx3).symm)
        · exact Or.inr (Nat.le_of_succ_le hx2)
      · intro o ho
        rcases he o ho with ho2 | ho2
        · rcases List.mem_append.mp ho2 with ho3 | ho3
          · exact Or.inl ho3
          · exact Or.inr (le_of_eq (List.mem_singleton.mp ho3).symm)
        · exact Or.inr (Nat.le_of_succ_le ho2)
    | take k =>
      cases htk : takeOne s.circuits k with
      | none =>
        obtain ⟨ha, hb, hc, hd, he⟩ := ih s ⟨hnd, hbd⟩
        simp only [poolRun, poolStep, htk, List.nil_append]
        exact ⟨ha, hb, hc, hd, he⟩
      | some p =>
        obtain ⟨c, cs2⟩ := p
        obtain ⟨hcmem, hcs2⟩ := takeOne_eq htk
        subst hcs2
        have hs1 : PoolInv ⟨s.circuits.erase c, s.next⟩ := by
          constructor
          · exact hnd.erase c
          · intro x hx
            exact hbd _ (List.mem_of_mem_erase hx)
        obtain ⟨ha, hb, hc, hd, he⟩ := ih ⟨s.circuits.erase c, s.next⟩ hs1
        simp only [poolRun, poolStep, htk, List.cons_append, List.nil_append]
        refine ⟨ha, hb, ?_, ?_, ?_⟩
        · intro x hx
          rcases hc x hx with hx2 | hx2
          · exact Or.inl (List.mem_of_mem_erase hx2)
          · exact Or.inr hx2
        · rw [List.nodup_cons]
          refine ⟨?_, hd⟩
          intro hco
          rcases he c hco with h2 | h2
          · exact absurd ((hnd.mem_erase_iff).mp h2).1 (by simp)
          · exact absurd h2 (Nat.not_le.mpr (hbd _ hcmem))
        · intro o ho
          rcases List.mem_cons.mp ho with ho2 | ho2
          · rw [ho2]
            exact Or.inl hcmem
          · rcases he o ho2 with h2 | h2
            · exact Or.inl (List.mem_of_mem_erase h2)
            · exact Or.inr h2

/-- Structural facts of one `tryFetchTorAsText` run over a duplicate-free
pool: the final pool stays duplicate-free and within the initial pool,
no leased circuit is ever present in the final pool (leased circuits
are never returned), and every destroyed circuit is a leased one. -/
theorem tryFetchTorAsText_run_spec (trace : List LeaseEnv) :
    ∀ pool : List Nat, pool.Nodup →
    (tryFetchTorAsText trace pool).pool.Nodup ∧
    (tryFetchTorAsText trace pool).pool ⊆ pool ∧
    (∀ c ∈ (tryFetchTorAsText trace pool).leased,
      c ∉ (tryFetchTorAsText trace pool).pool) ∧
    (∀ c ∈ (tryFetchTorAsText trace pool).destroyed,
      c ∈ (tryFetchTorAsText trace pool).leased) := by
  induction trace with
  | nil =>
    intro pool hnd
    refine ⟨hnd, fun x hx => hx, ?_, ?_⟩ <;> intro c hc <;>
      simp [tryFetchTorAsText] at hc
  | cons env rest ih =>
    intro pool hnd
    by_cases h1 : env.abortedAtTop
    · simp only [tryFetchTorAsText, h1, if_true]
      refine ⟨hnd, fun x hx => hx, ?_, ?_⟩ <;> intro c hc <;> simp at hc
    · cases htk : takeOne pool env.choice with
      | none =>
        simp only [tryFetchTorAsText, h1, if_false, htk]
        refine ⟨hnd, fun x hx => hx, ?_, ?_⟩ <;> intro c hc <;> simp at hc
      | some p =>
        obtain ⟨c0, pool2⟩ := p
        obtain ⟨hcmem, hpool2⟩ := takeOne_eq htk
        subst hpool2
        have hnd2 : (pool.erase c0).Nodup := hnd.erase c0
        have hc0 : c0 ∉ pool.erase c0 := by
          intro hmem
          exact absurd ((hnd.mem_erase_iff).mp hmem).1 (by simp)
        cases hatt : env.attempt with
        | ok body =>
          simp only [tryFetchTorAsText, h1, if_false, htk, hatt]
          refine ⟨hnd2, List.erase_subset _ _, ?_, ?_⟩
          · intro c hc
            rw [List.mem_singleton.mp hc]
            exact hc0
          · intro c hc
            simp at hc
        | notOk msg =>
          simp only [tryFetchTorAsText, h1, if_false, htk, hatt]
          refine ⟨hnd2, List.erase_subset _ _, ?_, ?_⟩
          · intro c hc
            rw [List.mem_singleton.mp hc]
            exact hc0
          · intro c hc
            simp at hc
        | thrown e =>
          by_cases h3 : env.abortedAtCatch
          · simp only [tryFetchTorAsText, h1, if_false, htk, hatt, h3, if_true]
            refine ⟨hnd2, List.erase_subset _ _, ?_, ?_⟩
            · intro c hc
              rw [List.mem_singleton.mp hc]
              exact hc0
            · intro c hc
              simp at hc
          · obtain ⟨ha, hb, hc, hd⟩ := ih (pool.erase c0) hnd2
            simp only [tryFetchTorAsText, h1, if_false, htk, hatt, h3, if_false]
            refine ⟨ha, fun x hx => List.erase_subset _ _ (hb hx), ?_, ?_⟩
            · intro c hcin
              rcases List.mem_cons.mp hcin with h4 | h4
              · rw [h4]
                intro hmem
                exact hc0 (hb hmem)
              · exact hc c h4
            · intro c hcin
              rcases List.mem_cons.mp hcin with h4 | h4
              · rw [h4]
                exact List.mem_cons_self _ _
              · exact List.mem_cons_of_mem _ (hd c h4)

/-- C1 : for every pool capacity `c ≥ 1` and any sequence of
concurrently issued `takeOne` calls (serialized by the mutex into
atomic select-then-delete steps, interleaved arbitrarily with pool
refills), no two calls ever receive the same circuit instance: the
list of handed-out circuits has no duplicate. -/
theorem takeOne_no_double_lease (c : Nat) ( _hcap : 1 ≤ c) (ops : List PoolOp) :
    ((poolRun (initPool c) ops).2).Nodup := by
  have hinv : PoolInv (initPool c) := by
    constructor
    · exact List.nodup_range c
    · intro x hx
      exact List.mem_range.mp hx
  exact (poolRun_spec ops (initPool c) hinv).2.2.2.1

/-- Witness for C1 at capacity 3 and a concrete operation sequence. -/
theorem takeOne_no_double_lease_witness :
    1 ≤ 3 ∧
    ((poolRun (initPool 3)
        [PoolOp.take 0, PoolOp.take 5, PoolOp.refill, PoolOp.take 2]).2).Nodup :=
  ⟨by decide,
   takeOne_no_double_lease 3 (by decide)
     [PoolOp.take 0, PoolOp.take 5, PoolOp.refill, PoolOp.take 2]⟩

/-- C4 counterexample : the claim "every leased circuit is either
consumed successfully or destroyed" is false: when the attempt throws
while the caller's signal is aborted, the catch rethrows before
`circuit.tryDestroy()` (index.tsx lines 256-258), so the leased
circuit is abandoned — neither consumed nor destroyed.  Concrete
input: pool `[3]`, one iteration whose attempt throws with the
caller's signal aborted at the catch. -/
theorem tryFetchTorAsText_not_always_consumed_or_destroyed :
    ¬ (∀ (pool : List Nat), pool.Nodup → ∀ (trace : List LeaseEnv),
        ∀ c ∈ (tryFetchTorAsText trace pool).leased,
          c ∉ (tryFetchTorAsText trace pool).pool ∧
          (consumed (tryFetchTorAsText trace pool) c ∨
            c ∈ (tryFetchTorAsText trace pool).destroyed)) := by
  intro h
  have h2 := h [3] (by decide)
    [⟨false, 0, AttemptResult.thrown 7, true⟩] 3 (by decide)
  have h3 := h2.2
  rw [show tryFetchTorAsText [⟨false, 0, AttemptResult.thrown 7, true⟩] [3] =
        ⟨FetchResult.rethrown 7, [], [3], []⟩ from rfl] at h3
  rcases h3 with h4 | h4
  · obtain ⟨h5, _⟩ := h4
    simp [isTerminalBody] at h5
  · simp at h4

/-- C4 amended : circuits are single-use in the weaker sense the code
guarantees: a leased circuit is never present in the pool afterward
and is never returned to the pool, and every destroyed circuit is a
leased one; however, when the attempt throws while the caller's signal
is aborted, the leased circuit is abandoned without being consumed or
destroyed. -/
theorem tryFetchTorAsText_single_use (trace : List LeaseEnv) (pool : List Nat)
    (h : pool.Nodup) :
    (∀ c ∈ (tryFetchTorAsText trace pool).leased,
      c ∉ (tryFetchTorAsText trace pool).pool) ∧
    (∀ c ∈ (tryFetchTorAsText trace pool).destroyed,
      c ∈ (tryFetchTorAsText trace pool).leased) ∧
    (∀ (env : LeaseEnv) (rest : List LeaseEnv) (e : Nat) (c : Nat) (pool2 : List Nat),
      env.abortedAtTop = false → env.attempt = AttemptResult.thrown e →
      env.abortedAtCatch = true → takeOne pool env.choice = some (c, pool2) →
      tryFetchTorAsText (env :: rest) pool =
        ⟨FetchResult.rethrown e, pool2, [c], []⟩) := by
  obtain ⟨_, _, h3, h4⟩ := tryFetchTorAsText_run_spec trace pool h
  refine ⟨h3, h4, ?_⟩
  intro env rest e c pool2 he1 he2 he3 he4
  simp [tryFetchTorAsText, he1, he4, he2, he3]

/-- Witness for C4 amended at a concrete pool and trace. -/
theorem tryFetchTorAsText_single_use_witness :
    ([4, 9] : List Nat).Nodup ∧
    ∀ c ∈ (tryFetchTorAsText [⟨false, 1, AttemptResult.ok "body", false⟩] [4, 9]).leased,
      c ∉ (tryFetchTorAsText [⟨false, 1, AttemptResult.ok "body", false⟩] [4, 9]).pool :=
  ⟨by decide,
   (tryFetchTorAsText_single_use [⟨false, 1, AttemptResult.ok "body", false⟩] [4, 9]
     (by decide)).1⟩

/-- C2 counterexample : the claim "with maxAttempts = 3 a permanently
failing transport causes exactly 3 request attempts and then resolves
TooManyRetries" is false: the loop is `while (true)` with no attempt
budget — after 4 iterations against a permanently failing transport it
has already performed 4 request attempts (and 4 backoff sleeps) and is
still running, with no terminal error. -/
theorem tryFetchTorText_exceeds_attempt_budget :
    (tryFetchTorText (permFailTrace 4)).2.attempts = 4 ∧
    (tryFetchTorText (permFailTrace 4)).2.sleeps.length = 4 ∧
    (tryFetchTorText (permFailTrace 4)).1 = FetchResult.running ∧
    ¬ (4 ≤ 3) := by
  refine ⟨rfl, rfl, rfl, by decide⟩

/-- C2 amended : the retry loop has no attempt budget: against a
permanently failing transport with the caller's signal never aborted,
after `k` iterations the call has performed exactly `k` request
attempts and `k` backoff sleeps of 1000 ms, destroyed `k` circuits,
and is still running — it never terminates with a TooManyRetries
error (no such outcome exists). -/
theorem tryFetchTorText_unbounded_retry (k : Nat) :
    tryFetchTorText (permFailTrace k) =
      (FetchResult.running,
       ⟨k, k, List.replicate k backoffDelayMs, List.replicate k 0, k⟩) := by
  induction k with
  | zero => rfl
  | succ n ih =>
    rw [show permFailTrace (n + 1) = permFailEnv :: permFailTrace n from
      List.replicate_succ _ _]
    simp [tryFetchTorText, permFailEnv, ih, Log.seq, attemptLog, failRecoveryLog,
      List.replicate_succ, Nat.add_comm]

/-- C3 counterexample : the claim "the backoff delay before retried
attempt `i` equals backoffBase * 2^i" is false at `i = 1`: the delay
slept there is the constant 1000 ms, not 1000 * 2^1 = 2000 ms. -/
theorem tryFetchTorText_backoff_not_exponential :
    (tryFetchTorText (permFailTrace 2)).2.sleeps.getD 1 0 = backoffDelayMs ∧
    (tryFetchTorText (permFailTrace 2)).2.sleeps.getD 1 0 ≠ 1000 * 2 ^ 1 := by
  refine ⟨rfl, by decide⟩

/-- C3 amended : every backoff delay the loop ever sleeps equals the
constant backoffBase of 1000 ms, independent of the attempt index: the
code sleeps `setTimeout(ok, 1000)` in every catch iteration. -/
theorem tryFetchTorText_backoff_constant (trace : List IterEnv) (d : Nat)
    (h : d ∈ (tryFetchTorText trace).2.sleeps) : d = backoffDelayMs := by
  induction trace with
  | nil => simp [tryFetchTorText, Log.empty] at h
  | cons env rest ih =>
    by_cases h1 : env.abortedAtTop
    · simp [tryFetchTorText, h1, Log.empty] at h
    · cases hatt : env.attempt with
      | ok body => simp [tryFetchTorText, h1, hatt, attemptLog] at h
      | notOk msg => simp [tryFetchTorText, h1, hatt, attemptLog] at h
      | thrown e =>
        by_cases h3 : env.abortedAtCatch
        · simp [tryFetchTorText, h1, hatt, h3, attemptLog] at h
        · simp [tryFetchTorText, h1, hatt, h3, Log.seq, attemptLog,
            failRecoveryLog] at h
          rcases h with h | h
          · exact h
          · exact ih h

/-- Witness for C3 amended at a concrete trace and delay. -/
theorem tryFetchTorText_backoff_constant_witness :
    1000 ∈ (tryFetchTorText (permFailTrace 1)).2.sleeps ∧ 1000 = backoffDelayMs :=
  ⟨by decide, tryFetchTorText_backoff_constant (permFailTrace 1) 1000 (by decide)⟩

/-- C5 : when the caller's signal is already aborted at the loop-top
check, the call throws `Aborted` immediately: no circuit is leased (so
the pool's factory is never invoked on its behalf), no request attempt
is made, and — in the pooled variant — the pool is left untouched. -/
theorem tryFetchTorText_aborted_before_lease (env : IterEnv) (rest : List IterEnv)
    (h : env.abortedAtTop = true) :
    tryFetchTorText (env :: rest) = (FetchResult.abortedErr, Log.empty) ∧
    Log.empty.leases = 0 ∧ Log.empty.attempts = 0 ∧
    (∀ (lenv : LeaseEnv) (lrest : List LeaseEnv) (pool : List Nat),
      lenv.abortedAtTop = true →
      tryFetchTorAsText (lenv :: lrest) pool =
        ⟨FetchResult.abortedErr, pool, [], []⟩) := by
  refine ⟨by simp [tryFetchTorText, h], rfl, rfl, ?_⟩
  intro lenv lrest pool hl
  simp [tryFetchTorAsText, hl]

/-- Witness for C5 at a concrete iteration environment. -/
theorem tryFetchTorText_aborted_before_lease_witness :
    (⟨true, 0, AttemptResult.ok "", false⟩ : IterEnv).abortedAtTop = true ∧
    tryFetchTorText [⟨true, 0, AttemptResult.ok "", false⟩] =
      (FetchResult.abortedErr, Log.empty) :=
  ⟨rfl, (tryFetchTorText_aborted_before_lease ⟨true, 0, AttemptResult.ok "", false⟩ []
    rfl).1⟩

/-- C6 : when the attempt throws and the caller's signal is aborted at
the catch check (in particular when the attempt's error is the
cancellation itself), the error is rethrown immediately: the result
does not depend on any further iterations, no backoff sleep happens,
and no further attempt is made beyond the single one performed. -/
theorem tryFetchTorText_abort_during_request (env : IterEnv) (rest : List IterEnv)
    (e : Nat) (h1 : env.abortedAtTop = false)
    (h2 : env.attempt = AttemptResult.thrown e) (h3 : env.abortedAtCatch = true) :
    tryFetchTorText (env :: rest) = (FetchResult.rethrown e, attemptLog) ∧
    attemptLog.sleeps = [] ∧ attemptLog.attempts = 1 := by
  refine ⟨by simp [tryFetchTorText, h1, h2, h3], rfl, rfl⟩

/-- Witness for C6 at a concrete iteration environment. -/
theorem tryFetchTorText_abort_during_request_witness :
    (⟨false, 2, AttemptResult.thrown 9, true⟩ : IterEnv).abortedAtTop = false ∧
    tryFetchTorText [⟨false, 2, AttemptResult.thrown 9, true⟩] =
      (FetchResult.rethrown 9, attemptLog) :=
  ⟨rfl, (tryFetchTorText_abort_during_request ⟨false, 2, AttemptResult.thrown 9, true⟩
    [] 9 rfl rfl rfl).1⟩

/-- C7 : a completed exchange with a non-2xx status returns an
application-level `{ error }` result at once: the result does not
depend on any further iterations (no retry), and the single iteration
logs no warning, sleeps no backoff, and destroys no circuit. -/
theorem tryFetchTorText_app_error_no_retry (env : IterEnv) (rest : List IterEnv)
    (msg : String) (h1 : env.abortedAtTop = false)
    (h2 : env.attempt = AttemptResult.notOk msg) :
    tryFetchTorText (env :: rest) = (FetchResult.error msg, attemptLog) ∧
    attemptLog.warns = 0 ∧ attemptLog.sleeps = [] ∧
    attemptLog.destroyed = [] ∧ attemptLog.attempts = 1 := by
  refine ⟨by simp [tryFetchTorText, h1, h2], rfl, rfl, rfl, rfl⟩

/-- Witness for C7 at a concrete iteration environment. -/
theorem tryFetchTorText_app_error_no_retry_witness :
    (⟨false, 1, AttemptResult.notOk "404", false⟩ : IterEnv).abortedAtTop = false ∧
    tryFetchTorText [⟨false, 1, AttemptResult.notOk "404", false⟩] =
      (FetchResult.error "404", attemptLog) :=
  ⟨rfl, (tryFetchTorText_app_error_no_retry ⟨false, 1, AttemptResult.notOk "404", false⟩
    [] "404" rfl rfl).1⟩

/-- Transport failures are never the loop's result while the caller's
signal stays un-aborted: no thrown attempt error is rethrown to the
caller. -/
theorem no_rethrow_of_no_abort (trace : List IterEnv)
    (h : ∀ env ∈ trace, env.abortedAtCatch = false) (e : Nat) :
    (tryFetchTorText trace).1 ≠ FetchResult.rethrown e := by
  induction trace with
  | nil => simp [tryFetchTorText]
  | cons env rest ih =>
    have henv : env.abortedAtCatch = false := h env (List.mem_cons_self _ _)
    have hrest : ∀ env2 ∈ rest, env2.abortedAtCatch = false :=
      fun env2 hm => h env2 (List.mem_cons_of_mem _ hm)
    by_cases h1 : env.abortedAtTop
    · simp [tryFetchTorText, h1]
    · cases hatt : env.attempt with
      | ok body => simp [tryFetchTorText, h1, hatt]
      | notOk msg => simp [tryFetchTorText, h1, hatt]
      | thrown e2 =>
        simp [tryFetchTorText, h1, hatt, henv]
        exact ih hrest

/-- C8 counterexample : the claim "every transport-level failure not
due to the caller's cancellation is classified Retryable — circuit
destroyed, warning logged, loop retries — and never surfaced to the
caller" is false: the caller's signal is never passed to
`circuit.fetch`, so no attempt error is ever due to the cancellation,
yet the catch rethrows any attempt error whenever `signal?.aborted`
is true (index.tsx line 79).  Concrete input: one iteration whose
attempt throws an independent transport error with the caller's
signal aborted at the catch: the error is surfaced directly and the
circuit is not destroyed. -/
theorem tryFetchTorText_failure_surfaced_when_aborted :
    ¬ (∀ (env : IterEnv) (rest : List IterEnv) (e : Nat),
        env.abortedAtTop = false → env.attempt = AttemptResult.thrown e →
        (tryFetchTorText (env :: rest)).1 = (tryFetchTorText rest).1 ∧
        env.circuit ∈ (tryFetchTorText (env :: rest)).2.destroyed) := by
  intro h
  have h2 := (h ⟨false, 0, AttemptResult.thrown 5, true⟩ [] 5 rfl rfl).1
  rw [show (tryFetchTorText [⟨false, 0, AttemptResult.thrown 5, true⟩]).1 =
        FetchResult.rethrown 5 from rfl,
      show (tryFetchTorText []).1 = FetchResult.running from rfl] at h2
  exact absurd h2 (by decide)

/-- C8 amended : every attempt is made under the fresh
`AbortSignal.timeout(5000)` — a 5-second per-attempt timeout
independent of the caller's signal; a thrown attempt error (including
timeout expiry) caught while the caller's signal is un-aborted is
handled as retryable: the circuit is destroyed, a warning is logged,
a backoff sleep happens and the loop continues with the next
iteration's result; and such a failure is never surfaced to the
caller as long as the caller's signal stays un-aborted (whereas a
failure caught after the caller's signal aborted is rethrown
directly). -/
theorem tryFetchTorText_transport_failure_retryable (env : IterEnv)
    (rest : List IterEnv) (e : Nat) (h1 : env.abortedAtTop = false)
    (h2 : env.attempt = AttemptResult.thrown e) (h3 : env.abortedAtCatch = false) :
    fetchAttemptSignal = SignalKind.timeoutMs 5000 ∧
    fetchAttemptSignal ≠ SignalKind.caller ∧
    tryFetchTorText (env :: rest) =
      ((tryFetchTorText rest).1,
       Log.seq (Log.seq attemptLog (failRecoveryLog env.circuit))
         (tryFetchTorText rest).2) ∧
    (failRecoveryLog env.circuit).destroyed = [env.circuit] ∧
    (failRecoveryLog env.circuit).warns = 1 ∧
    (failRecoveryLog env.circuit).sleeps = [backoffDelayMs] ∧
    (∀ trace : List IterEnv, (∀ env2 ∈ trace, env2.abortedAtCatch = false) →
      ∀ e2, (tryFetchTorText trace).1 ≠ FetchResult.rethrown e2) := by
  refine ⟨rfl, by decide, ?_, rfl, rfl, rfl,
    fun trace ht e2 => no_rethrow_of_no_abort trace ht e2⟩
  simp [tryFetchTorText, h1, h2, h3]

/-- Witness for C8 at a concrete iteration environment. -/
theorem tryFetchTorText_transport_failure_retryable_witness :
    permFailEnv.abortedAtTop = false ∧
    tryFetchTorText [permFailEnv] =
      ((tryFetchTorText []).1,
       Log.seq (Log.seq attemptLog (failRecoveryLog permFailEnv.circuit))
         (tryFetchTorText []).2) :=
  ⟨rfl, (tryFetchTorText_transport_failure_retryable permFailEnv [] 0
    rfl rfl rfl).2.2.1⟩

/-- C9 counterexample : the claim "every nested await — the lease
wait, the in-flight request and the backoff sleep — is wired to the
caller's cancellation signal, so a cancellation during the backoff
sleep interrupts the sleep" is false: none of the awaited operations
is passed the caller's signal (the request gets only the fresh timeout
signal, the sleep promise gets nothing), and on the concrete trace
where cancellation fires during the sleep the full 1000 ms sleep is
still performed before the call resolves `Aborted`. -/
theorem tryFetchTorText_cancel_not_wired :
    ¬ (∀ p : AwaitPoint, awaitSignal p = some SignalKind.caller) ∧
    awaitSignal AwaitPoint.backoffSleep = none ∧
    (tryFetchTorText [⟨false, 0, AttemptResult.thrown 5, false⟩,
        ⟨true, 0, AttemptResult.ok "", false⟩]).2.sleeps = [backoffDelayMs] ∧
    (tryFetchTorText [⟨false, 0, AttemptResult.thrown 5, false⟩,
        ⟨true, 0, AttemptResult.ok "", false⟩]).1 = FetchResult.abortedErr := by
  refine ⟨?_, rfl, rfl, rfl⟩
  intro h
  have h2 := h AwaitPoint.backoffSleep
  simp [awaitSignal] at h2

/-- C9 amended : cancellation is observed only at the loop's explicit
check points (the loop top and the catch), never inside an await: no
awaited operation receives the caller's signal, and a cancellation
firing during the backoff sleep lets the sleep run to completion —
the call then resolves `Aborted` at the next loop-top check. -/
theorem tryFetchTorText_abort_at_checkpoints (env env2 : IterEnv)
    (rest : List IterEnv) (e : Nat) (h1 : env.abortedAtTop = false)
    (h2 : env.attempt = AttemptResult.thrown e) (h3 : env.abortedAtCatch = false)
    (h4 : env2.abortedAtTop = true) :
    (∀ p : AwaitPoint, awaitSignal p ≠ some SignalKind.caller) ∧
    tryFetchTorText (env :: env2 :: rest) =
      (FetchResult.abortedErr,
       Log.seq (Log.seq attemptLog (failRecoveryLog env.circuit)) Log.empty) ∧
    (Log.seq (Log.seq attemptLog (failRecoveryLog env.circuit)) Log.empty).sleeps =
      [backoffDelayMs] := by
  refine ⟨?_, ?_, rfl⟩
  · intro p
    cases p <;> simp [awaitSignal, fetchAttemptSignal]
  · simp [tryFetchTorText, h1, h2, h3, h4]

/-- Witness for C9 amended at a concrete trace. -/
theorem tryFetchTorText_abort_at_checkpoints_witness :
    permFailEnv.abortedAtTop = false ∧
    tryFetchTorText [permFailEnv, ⟨true, 0, AttemptResult.ok "", false⟩] =
      (FetchResult.abortedErr,
       Log.seq (Log.seq attemptLog (failRecoveryLog permFailEnv.circuit)) Log.empty) :=
  ⟨rfl, (tryFetchTorText_abort_at_checkpoints permFailEnv
    ⟨true, 0, AttemptResult.ok "", false⟩ [] 0 rfl rfl rfl rfl).2.1⟩

/-- C10 : without a pool, `getTorText` returns no schema at all — no
cache key, no fetcher, so no fetch operation can ever start; with a
pool, the schema is keyed exactly by `"tor:"` followed by the url,
has a fetcher, and carries a 30-second overall timeout. -/
theorem getTorText_keyed_schema (url : String) :
    getTorText url none = none ∧
    ∀ p : PoolSt, getTorText url (some p) =
      some ⟨some (String.append "tor:" url), true, 30 * 1000⟩ :=
  ⟨rfl, fun _ => rfl⟩
